import Mathlib

/-!
# float32 → float16 bit-pattern conversion (`src/c/float32_to_float16.c`)

Shallow embedding of the two C functions of the repository.

* `uint32_t`, `uint16_t` and `size_t` values are natural numbers; every narrowing
  conversion the C code performs is written out as an explicit reduction
  (`toUint16`, `intToUint16`, `subU32`, `toInt32`).
* `int` / `int32_t` values are integers.
* `convertFloat32ToFloat16` runs in a flat, byte-addressed memory (a list of
  bytes); the two pointers are addresses into it, so the input and output
  buffers may lie anywhere, overlapping or not.  The `const float*` is read
  through a `const uint32_t*`: element `i` of the input is the 4-byte object
  at `src + 4 * i`, element `i` of the output the 2-byte object at
  `dst + 2 * i`.  The byte order of the platform is a parameter.  An access
  outside memory is undefined behaviour in C; the embedding returns `none`.
  Alignment and the effective-type rules of C are not modelled.
-/

namespace Float16

/-! ## Machine-integer conversions -/

/-- Conversion of an unsigned value to `uint16_t`: reduction modulo `2^16`. -/
def toUint16 (n : Nat) : Nat := n % 65536

/-- Conversion of a (signed) `int` value to `uint16_t`: reduction modulo `2^16`. -/
def intToUint16 (z : Int) : Nat := (z % 65536).toNat

/-- Subtraction of two `uint32_t` operands: the result wraps modulo `2^32`. -/
def subU32 (a b : Nat) : Nat := (a % 4294967296 + (4294967296 - b % 4294967296)) % 4294967296

/-- Conversion of a `uint32_t` value to `int32_t` (two's complement). -/
def toInt32 (n : Nat) : Int :=
  if n % 4294967296 < 2147483648 then ((n % 4294967296 : Nat) : Int)
  else ((n % 4294967296 : Nat) : Int) - 4294967296

/-! ## The scalar converter -/

/-- The local `sign` of `float32ToFloat16`: `uint16_t sign = (f >> 16) & 0x8000;`. -/
def signOf (f : Nat) : Nat := toUint16 ((f >>> 16) &&& 0x8000)

/-- The local `exponent` of `float32ToFloat16`:
`int32_t exponent = ((f >> 23) & 0xff) - 112;`.  The left operand is a
`uint32_t`, so the subtraction is unsigned and its result is then converted
to `int32_t`. -/
def exponentOf (f : Nat) : Int := toInt32 (subU32 ((f >>> 23) &&& 0xff) 112)

/-- The local `mantissa` of `float32ToFloat16`:
`uint16_t mantissa = (f & 0x007fffff) >> 13;`. -/
def mantissaOf (f : Nat) : Nat := toUint16 ((f &&& 0x007fffff) >>> 13)

/-- The C function `uint16_t float32ToFloat16(uint32_t f)`.  The operands of
`|` are promoted to `int`, and the `int` result is converted to `uint16_t` on
return. -/
def float32ToFloat16 (f : Nat) : Nat :=
  let sign := signOf f
  let exponent := exponentOf f
  let mantissa := mantissaOf f
  if exponent ≤ 0 then
    sign
  else if exponent ≥ 31 then
    intToUint16 (Int.lor (sign : Int) 0x7c00)
  else
    intToUint16 (Int.lor (Int.lor (sign : Int) (exponent <<< (10 : Int))) (mantissa : Int))

/-! ## The buffer converter -/

/-- The byte stored at address `a` of a flat memory (`0` outside it). -/
def byteAt (m : List Nat) (a : Nat) : Nat := (m[a]?).getD 0 % 256

/-- Load of a `uint32_t` object at address `a`: its four bytes, in the byte
order of the platform (`le = true` for little-endian).  A load that is not
inside the memory is undefined behaviour (`none`). -/
def load32 (le : Bool) (m : List Nat) (a : Nat) : Option Nat :=
  if a + 4 ≤ m.length then
    some (if le then
      byteAt m a + 256 * byteAt m (a + 1) + 65536 * byteAt m (a + 2) + 16777216 * byteAt m (a + 3)
    else
      byteAt m (a + 3) + 256 * byteAt m (a + 2) + 65536 * byteAt m (a + 1) + 16777216 * byteAt m a)
  else none

/-- Load of a `uint16_t` object at address `a`. -/
def load16 (le : Bool) (m : List Nat) (a : Nat) : Option Nat :=
  if a + 2 ≤ m.length then
    some (if le then byteAt m a + 256 * byteAt m (a + 1)
      else byteAt m (a + 1) + 256 * byteAt m a)
  else none

/-- Store of the `uint16_t` value `v` at address `a`: its two bytes are
written, every other byte of memory is kept.  A store that is not inside the
memory is undefined behaviour (`none`). -/
def store16 (le : Bool) (m : List Nat) (a : Nat) (v : Nat) : Option (List Nat) :=
  if a + 2 ≤ m.length then
    some (if le then (m.set a (v % 256)).set (a + 1) (v / 256 % 256)
      else (m.set a (v / 256 % 256)).set (a + 1) (v % 256))
  else none

/-- The `for` loop of `convertFloat32ToFloat16`, at index `i` in memory `m`,
with `src` and `dst` the addresses held by the two pointers: while `i < len`,
it loads `s[i]` (the `uint32_t` at `src + 4 * i`), stores
`float32ToFloat16(s[i])` at `dst[i]` (the `uint16_t` at `dst + 2 * i`) and
increments `i`.  Every load sees the stores made before it. -/
def convertLoop (le : Bool) (src dst len : Nat) (i : Nat) (m : List Nat) : Option (List Nat) :=
  if i < len then
    match load32 le m (src + 4 * i) with
    | none => none
    | some v =>
      match store16 le m (dst + 2 * i) (float32ToFloat16 v) with
      | none => none
      | some m1 => convertLoop le src dst len (i + 1) m1
  else some m
termination_by len - i

/-- The C function `void convertFloat32ToFloat16(const float* src, uint16_t* dst, size_t len)`,
run in memory `m` with the pointers holding the addresses `src` and `dst`: the
result is the memory after the call. -/
def convertFloat32ToFloat16 (le : Bool) (m : List Nat) (src dst len : Nat) : Option (List Nat) :=
  convertLoop le src dst len 0 m

/-! ## Values denoted by normal bit patterns -/

/-- The rational number denoted by a binary16 pattern with a normal exponent
field: `(-1)^s * 2^(E-15) * (1 + M/1024)`, with `s` bit 15, `E` bits 14..10 and
`M` bits 9..0 (1 sign bit, 5 exponent bits of bias 15, 10 mantissa bits). -/
def binary16Value (h : Nat) : ℚ :=
  (-1 : ℚ) ^ ((h >>> 15) &&& 1) * (2 : ℚ) ^ ((((h >>> 10) &&& 0x1f : Nat) : Int) - 15)
    * (1 + (((h &&& 0x03ff : Nat) : ℚ)) / 1024)

/-- The rational number denoted by a binary32 pattern with a normal exponent
field: `(-1)^s * 2^(e-127) * (1 + m/2^23)`, with `s` bit 31, `e` bits 30..23 and
`m` bits 22..0 (1 sign bit, 8 exponent bits of bias 127, 23 mantissa bits). -/
def binary32Value (x : Nat) : ℚ :=
  (-1 : ℚ) ^ ((x >>> 31) &&& 1) * (2 : ℚ) ^ ((((x >>> 23) &&& 0xff : Nat) : Int) - 127)
    * (1 + (((x &&& 0x007fffff : Nat) : ℚ)) / 8388608)

/-! ## Arithmetic reading of the bit operations -/

theorem and_0x8000 (y : Nat) : y &&& 0x8000 = (y / 32768 % 2) * 32768 := by
  have h := Nat.and_two_pow y 15
  rw [Nat.toNat_testBit] at h
  norm_num at h
  exact h

theorem and_0xff (y : Nat) : y &&& 0xff = y % 256 :=
  Nat.and_pow_two_sub_one_eq_mod y 8

theorem and_0x7fffff (y : Nat) : y &&& 0x007fffff = y % 8388608 :=
  Nat.and_pow_two_sub_one_eq_mod y 23

theorem lor_eq_add (i a b : Nat) (hb : b < 2 ^ i) : 2 ^ i * a ||| b = 2 ^ i * a + b :=
  (Nat.mul_add_lt_is_or hb a).symm

theorem and_0x1f (y : Nat) : y &&& 0x1f = y % 32 :=
  Nat.and_pow_two_sub_one_eq_mod y 5

theorem and_0x3ff (y : Nat) : y &&& 0x03ff = y % 1024 :=
  Nat.and_pow_two_sub_one_eq_mod y 10

/-- A sign bit, a five-bit exponent and a ten-bit mantissa occupy disjoint bit
ranges, so or-ing them is adding them. -/
theorem pack_eq (s E m : Nat) (hE : E < 32) (hm : m < 1024) :
    s * 32768 ||| E * 1024 ||| m = s * 32768 + E * 1024 + m := by
  have e1 : s * 32768 ||| E * 1024 = s * 32768 + E * 1024 := by
    have := lor_eq_add 15 s (E * 1024) (by norm_num; omega)
    norm_num at this
    rw [Nat.mul_comm 32768 s] at this
    exact this
  have e2 : s * 32768 + E * 1024 ||| m = s * 32768 + E * 1024 + m := by
    have := lor_eq_add 10 (s * 32 + E) m (by norm_num; omega)
    norm_num at this
    have e3 : 1024 * (s * 32 + E) = s * 32768 + E * 1024 := by omega
    rw [e3] at this
    exact this
  rw [e1, e2]

/-- Masking a 32-bit value with `0xFFFFE000` clears its low 13 bits. -/
theorem and_0xFFFFE000 (x : Nat) (hx : x < 4294967296) :
    x &&& 0xFFFFE000 = x / 8192 * 8192 := by
  apply Nat.eq_of_testBit_eq
  intro i
  have hc : (0xFFFFE000 : Nat) = (2 ^ 19 - 1) <<< 13 := by decide
  have hr : x / 8192 * 8192 = (x >>> 13) <<< 13 := by
    rw [Nat.shiftRight_eq_div_pow, Nat.shiftLeft_eq]
  rw [hr, hc, Nat.testBit_and, Nat.testBit_shiftLeft, Nat.testBit_shiftLeft,
    Nat.testBit_two_pow_sub_one, Nat.testBit_shiftRight]
  by_cases h13 : 13 ≤ i
  · have e : 13 + (i - 13) = i := by omega
    rw [e]
    by_cases h32 : i < 32
    · have : i - 13 < 19 := by omega
      simp [h13, this]
    · have hlt : x < 2 ^ i :=
        Nat.lt_of_lt_of_le hx (by
          have : (4294967296 : Nat) = 2 ^ 32 := by norm_num
          rw [this]
          exact Nat.pow_le_pow_right (by norm_num) (by omega))
      rw [Nat.testBit_lt_two_pow hlt]
      simp
  · simp [h13]

theorem signOf_eq (f : Nat) : signOf f = (f / 2147483648 % 2) * 32768 := by
  unfold signOf toUint16
  rw [and_0x8000, Nat.shiftRight_eq_div_pow]
  norm_num
  omega

theorem exponentOf_eq (f : Nat) : exponentOf f = ((f / 8388608 % 256 : Nat) : Int) - 112 := by
  unfold exponentOf toInt32 subU32
  rw [and_0xff, Nat.shiftRight_eq_div_pow]
  norm_num
  split <;> omega

theorem mantissaOf_eq (f : Nat) : mantissaOf f = f / 8192 % 1024 := by
  unfold mantissaOf toUint16
  rw [and_0x7fffff, Nat.shiftRight_eq_div_pow]
  norm_num
  omega

theorem int_lor_natCast (a b : Nat) : Int.lor (a : Int) (b : Int) = ((a ||| b : Nat) : Int) := rfl

theorem int_shiftLeft_ten (a : Nat) : (a : Int) <<< (10 : Int) = ((a * 1024 : Nat) : Int) := by
  have h := Int.shiftLeft_coe_nat a 10
  rw [Nat.shiftLeft_eq] at h
  exact h

theorem intToUint16_natCast (n : Nat) : intToUint16 (n : Int) = n % 65536 := by
  unfold intToUint16
  omega

/-! ## The three regimes of `float32ToFloat16`, in arithmetic form -/

/-- Raw exponent field at most 112: the result is the sign bit alone. -/
theorem float32ToFloat16_low (f : Nat) (h : f / 8388608 % 256 ≤ 112) :
    float32ToFloat16 f = (f / 2147483648 % 2) * 32768 := by
  unfold float32ToFloat16
  simp only [exponentOf_eq, signOf_eq]
  rw [if_pos (by omega)]

/-- Raw exponent field at least 143: the result is the sign bit and `0x7c00`. -/
theorem float32ToFloat16_high (f : Nat) (h : 143 ≤ f / 8388608 % 256) :
    float32ToFloat16 f = (f / 2147483648 % 2) * 32768 + 31744 := by
  unfold float32ToFloat16
  simp only [exponentOf_eq, signOf_eq]
  rw [if_neg (by omega), if_pos (by omega)]
  have h1 : ((0x7c00 : Int)) = ((31744 : Nat) : Int) := rfl
  rw [h1, int_lor_natCast, intToUint16_natCast]
  have h2 : f / 2147483648 % 2 = 0 ∨ f / 2147483648 % 2 = 1 := by omega
  rcases h2 with h2 | h2 <;> rw [h2] <;> decide

/-- Raw exponent field in `113..142`: sign, rebiased exponent and the top ten
mantissa bits are packed side by side. -/
theorem float32ToFloat16_mid (f : Nat) (h1 : 112 < f / 8388608 % 256)
    (h2 : f / 8388608 % 256 < 143) :
    float32ToFloat16 f
      = (f / 2147483648 % 2) * 32768 + (f / 8388608 % 256 - 112) * 1024 + f / 8192 % 1024 := by
  unfold float32ToFloat16
  simp only [exponentOf_eq, signOf_eq, mantissaOf_eq]
  rw [if_neg (by omega), if_neg (by omega)]
  have h3 : ((f / 8388608 % 256 : Nat) : Int) - 112 = ((f / 8388608 % 256 - 112 : Nat) : Int) := by
    omega
  rw [h3, int_shiftLeft_ten, int_lor_natCast, int_lor_natCast, intToUint16_natCast]
  rw [pack_eq _ _ _ (by omega) (by omega)]
  omega

/-! ## The scalar converter: regimes, concrete cases, sign -/

/-- C1: for a 32-bit input whose raw exponent field lies strictly between 112
and 143, the result is `((x >> 16) & 0x8000) | ((raw - 112) << 10) | ((x & 0x007fffff) >> 13)`;
its bit 15 is bit 31 of the input, its exponent field (bits 14..10) is
`raw - 112`, and its mantissa field (bits 9..0) is bits 22..13 of the input. -/
theorem C1_normal_regime (x : Nat) (_hx : x < 4294967296)
    (h1 : 112 < (x >>> 23) &&& 0xff) (h2 : (x >>> 23) &&& 0xff < 143) :
    float32ToFloat16 x
        = ((x >>> 16) &&& 0x8000) ||| ((((x >>> 23) &&& 0xff) - 112) <<< 10)
            ||| ((x &&& 0x007fffff) >>> 13)
      ∧ (float32ToFloat16 x >>> 15) &&& 1 = (x >>> 31) &&& 1
      ∧ (float32ToFloat16 x >>> 10) &&& 0x1f = ((x >>> 23) &&& 0xff) - 112
      ∧ float32ToFloat16 x &&& 0x03ff = (x >>> 13) &&& 0x03ff := by
  rw [and_0xff, Nat.shiftRight_eq_div_pow] at h1 h2
  norm_num at h1 h2
  rw [float32ToFloat16_mid x h1 h2]
  simp only [and_0xff, and_0x1f, and_0x3ff, and_0x7fffff, and_0x8000, Nat.and_one_is_mod,
    Nat.shiftRight_eq_div_pow, Nat.shiftLeft_eq]
  norm_num
  rw [pack_eq _ _ _ (by omega) (by omega)]
  omega

theorem C1_normal_regime_witness :
    (0x3F801234 : Nat) < 4294967296
      ∧ 112 < ((0x3F801234 : Nat) >>> 23) &&& 0xff ∧ ((0x3F801234 : Nat) >>> 23) &&& 0xff < 143
      ∧ float32ToFloat16 0x3F801234 = 0x3C00 :=
  ⟨by decide, by decide, by decide,
    (C1_normal_regime 0x3F801234 (by decide) (by decide) (by decide)).1.trans (by decide)⟩

/-- C2: for a 32-bit input whose raw exponent field is at most 112, the result
is exactly bit 31 of the input moved to bit 15 (`0x0000` or `0x8000`).  For a
raw exponent below 112 the unsigned subtraction wraps modulo `2^32` and the
stored `int32_t` exponent is the negative number `raw - 112`. -/
theorem C2_underflow_regime (x : Nat) (_hx : x < 4294967296)
    (h : (x >>> 23) &&& 0xff ≤ 112) :
    float32ToFloat16 x = ((x >>> 31) &&& 1) <<< 15
      ∧ (float32ToFloat16 x = 0x0000 ∨ float32ToFloat16 x = 0x8000)
      ∧ ((x >>> 23) &&& 0xff < 112 →
          subU32 ((x >>> 23) &&& 0xff) 112 = 4294967296 - 112 + ((x >>> 23) &&& 0xff)
            ∧ exponentOf x = (((x >>> 23) &&& 0xff : Nat) : Int) - 112
            ∧ exponentOf x < 0) := by
  have hE := exponentOf_eq x
  have hr : (x >>> 23) &&& 0xff = x / 8388608 % 256 := by
    rw [and_0xff, Nat.shiftRight_eq_div_pow]
  have hs : ((x >>> 31) &&& 1) <<< 15 = (x / 2147483648 % 2) * 32768 := by
    rw [Nat.and_one_is_mod, Nat.shiftRight_eq_div_pow, Nat.shiftLeft_eq]
  rw [hr] at h ⊢
  rw [float32ToFloat16_low x h, hs]
  refine ⟨rfl, by omega, ?_⟩
  intro h'
  rw [hE]
  unfold subU32
  refine ⟨by omega, rfl, by omega⟩

theorem C2_underflow_regime_witness :
    (0x80000001 : Nat) < 4294967296 ∧ ((0x80000001 : Nat) >>> 23) &&& 0xff ≤ 112
      ∧ float32ToFloat16 0x80000001 = 0x8000 :=
  ⟨by decide, by decide,
    (C2_underflow_regime 0x80000001 (by decide) (by decide)).1.trans (by decide)⟩

/-- C3: for a 32-bit input whose raw exponent field is at least 143 (this
covers every Infinity and every NaN pattern, raw exponent 255 with any
mantissa), the result is exactly `(bit 31 << 15) | 0x7c00`, that is `0x7c00`
or `0xfc00`. -/
theorem C3_overflow_regime (x : Nat) (_hx : x < 4294967296)
    (h : 143 ≤ (x >>> 23) &&& 0xff) :
    float32ToFloat16 x = (((x >>> 31) &&& 1) <<< 15) ||| 0x7c00
      ∧ (float32ToFloat16 x = 0x7c00 ∨ float32ToFloat16 x = 0xfc00) := by
  rw [and_0xff, Nat.shiftRight_eq_div_pow] at h
  norm_num at h
  rw [float32ToFloat16_high x h]
  simp only [Nat.and_one_is_mod, Nat.shiftRight_eq_div_pow, Nat.shiftLeft_eq]
  norm_num
  have h2 : x / 2147483648 % 2 = 0 ∨ x / 2147483648 % 2 = 1 := by omega
  rcases h2 with h2 | h2 <;> rw [h2] <;> decide

theorem C3_overflow_regime_witness :
    (0xFFC00001 : Nat) < 4294967296 ∧ 143 ≤ ((0xFFC00001 : Nat) >>> 23) &&& 0xff
      ∧ float32ToFloat16 0xFFC00001 = 0xfc00 :=
  ⟨by decide, by decide,
    (C3_overflow_regime 0xFFC00001 (by decide) (by decide)).1.trans (by decide)⟩

/-- C7: the four documented concrete cases: `0x3F800000` (1.0) gives `0x3C00`,
`0xC0000000` (-2.0) gives `0xC000`, `0x7F800000` (+Infinity) gives `0x7C00`,
and `0x00000001` (tiny positive) gives `0x0000`. -/
theorem C7_concrete_cases :
    float32ToFloat16 0x3F800000 = 0x3C00
      ∧ float32ToFloat16 0xC0000000 = 0xC000
      ∧ float32ToFloat16 0x7F800000 = 0x7C00
      ∧ float32ToFloat16 0x00000001 = 0x0000 := by
  refine ⟨?_, ?_, ?_, ?_⟩ <;> decide

/-- C8: for every 32-bit input, in all three regimes, bit 15 of the result is
bit 31 of the input: the result masked with `0x8000` is the computed sign
`(x >> 16) & 0x8000`. -/
theorem C8_sign_bit (x : Nat) (_hx : x < 4294967296) :
    (float32ToFloat16 x >>> 15) &&& 1 = (x >>> 31) &&& 1
      ∧ float32ToFloat16 x &&& 0x8000 = (x >>> 16) &&& 0x8000
      ∧ float32ToFloat16 x &&& 0x8000 = signOf x := by
  rw [signOf_eq]
  simp only [and_0x8000, Nat.and_one_is_mod, Nat.shiftRight_eq_div_pow]
  norm_num
  rcases Nat.lt_or_ge 112 (x / 8388608 % 256) with h1 | h1
  · rcases Nat.lt_or_ge (x / 8388608 % 256) 143 with h2 | h2
    · rw [float32ToFloat16_mid x h1 h2]
      omega
    · rw [float32ToFloat16_high x h2]
      omega
  · rw [float32ToFloat16_low x h1]
    omega

theorem C8_sign_bit_witness :
    (0xC0000000 : Nat) < 4294967296
      ∧ (float32ToFloat16 0xC0000000 >>> 15) &&& 1 = ((0xC0000000 : Nat) >>> 31) &&& 1 :=
  ⟨by decide, (C8_sign_bit 0xC0000000 (by decide)).1⟩

/-! ## The normal regime as truncation of the denoted value -/

/-- The value of a binary16 pattern, from its three fields. -/
theorem binary16Value_pack (s E m : Nat) (hs : s < 2) (hE : E < 32) (hm : m < 1024) :
    binary16Value (s * 32768 + E * 1024 + m)
      = (-1 : ℚ) ^ s * (2 : ℚ) ^ ((E : Int) - 15) * (1 + (m : ℚ) / 1024) := by
  unfold binary16Value
  have h1 : ((s * 32768 + E * 1024 + m) >>> 15) &&& 1 = s := by
    rw [Nat.and_one_is_mod, Nat.shiftRight_eq_div_pow]
    omega
  have h2 : ((s * 32768 + E * 1024 + m) >>> 10) &&& 0x1f = E := by
    rw [and_0x1f, Nat.shiftRight_eq_div_pow]
    omega
  have h3 : (s * 32768 + E * 1024 + m) &&& 0x03ff = m := by
    rw [and_0x3ff]
    omega
  rw [h1, h2, h3]

/-- The value of a binary32 pattern, from its three fields. -/
theorem binary32Value_pack (s e m : Nat) (hs : s < 2) (he : e < 256) (hm : m < 8388608) :
    binary32Value (s * 2147483648 + e * 8388608 + m)
      = (-1 : ℚ) ^ s * (2 : ℚ) ^ ((e : Int) - 127) * (1 + (m : ℚ) / 8388608) := by
  unfold binary32Value
  have h1 : ((s * 2147483648 + e * 8388608 + m) >>> 31) &&& 1 = s := by
    rw [Nat.and_one_is_mod, Nat.shiftRight_eq_div_pow]
    omega
  have h2 : ((s * 2147483648 + e * 8388608 + m) >>> 23) &&& 0xff = e := by
    rw [and_0xff, Nat.shiftRight_eq_div_pow]
    omega
  have h3 : (s * 2147483648 + e * 8388608 + m) &&& 0x007fffff = m := by
    rw [and_0x7fffff]
    omega
  rw [h1, h2, h3]

/-- The magnitude of a normal value: the sign factor drops out. -/
theorem abs_normal_value (s : Nat) (k : Int) (a : ℚ) (ha : 0 ≤ a) :
    |(-1 : ℚ) ^ s * (2 : ℚ) ^ k * (1 + a)| = (2 : ℚ) ^ k * (1 + a) := by
  have h2 : (0 : ℚ) < (2 : ℚ) ^ k := zpow_pos (by norm_num) k
  rw [abs_mul, abs_mul, abs_pow, abs_neg, abs_one, one_pow, one_mul, abs_of_pos h2,
    abs_of_nonneg (by linarith)]

/-- A 32-bit value splits into sign bit, exponent field, top ten mantissa bits
and the thirteen discarded bits. -/
theorem split_fields (x : Nat) (hx : x < 4294967296) :
    ∃ s e m r, s < 2 ∧ e < 256 ∧ m < 1024 ∧ r < 8192
      ∧ x = s * 2147483648 + e * 8388608 + (m * 8192 + r) :=
  ⟨x / 2147483648, x / 8388608 % 256, x / 8192 % 1024, x % 8192,
    by omega, by omega, by omega, by omega, by omega⟩

/-- C9: for a 32-bit input with raw exponent field in `113..142`, the rational
value denoted by the result under the binary16 layout equals the value denoted
by the input with its low 13 mantissa bits cleared (sign and exponent field
kept, mantissa `m` replaced by `m` with bits 12..0 zeroed).  The unbiased
exponent is unchanged, and the result is the input value truncated toward
zero: its magnitude is at most the input magnitude and less than one unit of
the tenth mantissa bit below it. -/
theorem C9_value_truncation (x : Nat) (hx : x < 4294967296)
    (h1 : 113 ≤ (x >>> 23) &&& 0xff) (h2 : (x >>> 23) &&& 0xff ≤ 142) :
    binary16Value (float32ToFloat16 x) = binary32Value (x &&& 0xFFFFE000)
      ∧ (x &&& 0xFFFFE000) >>> 23 = x >>> 23
      ∧ (x &&& 0xFFFFE000) &&& 0x007fffff = ((x &&& 0x007fffff) >>> 13) <<< 13
      ∧ ((((float32ToFloat16 x >>> 10) &&& 0x1f : Nat) : Int) - 15
          = ((((x >>> 23) &&& 0xff : Nat) : Int)) - 127)
      ∧ |binary16Value (float32ToFloat16 x)| ≤ |binary32Value x|
      ∧ |binary32Value x| - |binary16Value (float32ToFloat16 x)|
          < (2 : ℚ) ^ (((((x >>> 23) &&& 0xff : Nat) : Int)) - 127) / 1024 := by
  have hraw : (x >>> 23) &&& 0xff = x / 8388608 % 256 := by
    rw [and_0xff, Nat.shiftRight_eq_div_pow]
  rw [hraw] at h1 h2 ⊢
  have hf := float32ToFloat16_mid x (by omega) (by omega)
  have hc := and_0xFFFFE000 x hx
  obtain ⟨s, e, m, r, hs, he, hm, hr, rfl⟩ := split_fields x hx
  have e1 : (s * 2147483648 + e * 8388608 + (m * 8192 + r)) / 2147483648 % 2 = s := by omega
  have e2 : (s * 2147483648 + e * 8388608 + (m * 8192 + r)) / 8388608 % 256 = e := by omega
  have e3 : (s * 2147483648 + e * 8388608 + (m * 8192 + r)) / 8192 % 1024 = m := by omega
  have e4 : (s * 2147483648 + e * 8388608 + (m * 8192 + r)) / 8192 * 8192
      = s * 2147483648 + e * 8388608 + m * 8192 := by omega
  rw [e2] at h1 h2 ⊢
  rw [e1, e2, e3] at hf
  rw [e4] at hc
  rw [hf, hc]
  have hE : (((e - 112 : Nat) : Int)) - 15 = (e : Int) - 127 := by omega
  have v16 := binary16Value_pack s (e - 112) m hs (by omega) hm
  have v32c := binary32Value_pack s e (m * 8192) hs he (by omega)
  have v32 := binary32Value_pack s e (m * 8192 + r) hs he (by omega)
  rw [hE] at v16
  have hr0 : (0 : ℚ) ≤ (r : ℚ) := Nat.cast_nonneg r
  have hm0 : (0 : ℚ) ≤ (m : ℚ) := Nat.cast_nonneg m
  have hr1 : (r : ℚ) < 8192 := by exact_mod_cast hr
  have h2k : (0 : ℚ) < (2 : ℚ) ^ ((e : Int) - 127) := zpow_pos (by norm_num) _
  have a16 := abs_normal_value s ((e : Int) - 127) ((m : ℚ) / 1024)
    (div_nonneg hm0 (by norm_num))
  have a32 := abs_normal_value s ((e : Int) - 127) (((m * 8192 + r : Nat) : ℚ) / 8388608)
    (div_nonneg (Nat.cast_nonneg _) (by norm_num))
  refine ⟨?_, ?_, ?_, ?_, ?_, ?_⟩
  · rw [v16, v32c]
    push_cast
    ring
  · rw [Nat.shiftRight_eq_div_pow, Nat.shiftRight_eq_div_pow]
    norm_num
    omega
  · rw [and_0x7fffff, and_0x7fffff, Nat.shiftRight_eq_div_pow, Nat.shiftLeft_eq]
    norm_num
    omega
  · have e5 : ((s * 32768 + (e - 112) * 1024 + m) >>> 10) &&& 0x1f = e - 112 := by
      rw [and_0x1f, Nat.shiftRight_eq_div_pow]
      omega
    rw [e5]
    exact hE
  · rw [v16, v32, a16, a32]
    apply mul_le_mul_of_nonneg_left _ h2k.le
    push_cast
    linarith
  · rw [v16, v32, a16, a32]
    have e6 : (2 : ℚ) ^ ((e : Int) - 127) * (1 + ((m * 8192 + r : Nat) : ℚ) / 8388608)
        - (2 : ℚ) ^ ((e : Int) - 127) * (1 + (m : ℚ) / 1024)
        = (2 : ℚ) ^ ((e : Int) - 127) * ((r : ℚ) / 8388608) := by
      push_cast
      ring
    rw [e6, div_eq_mul_inv ((2 : ℚ) ^ ((e : Int) - 127))]
    apply mul_lt_mul_of_pos_left _ h2k
    linarith

theorem C9_value_truncation_witness :
    (0x3F801234 : Nat) < 4294967296
      ∧ 113 ≤ ((0x3F801234 : Nat) >>> 23) &&& 0xff ∧ ((0x3F801234 : Nat) >>> 23) &&& 0xff ≤ 142
      ∧ binary16Value (float32ToFloat16 0x3F801234) = binary32Value (0x3F801234 &&& 0xFFFFE000) :=
  ⟨by decide, by decide, by decide,
    (C9_value_truncation 0x3F801234 (by decide) (by decide) (by decide)).1⟩

/-! ## The exponent rebias -/

/-- C10 fails on the code: at `0x3F800000` (1.0, raw exponent 127, normal
regime) the adjusted exponent is `15 = 127 - (127 - 15)`, not one less, and the
unbiased exponent of the result is `0`, equal to the unbiased exponent of the
input and not one below it. -/
theorem C10_counterexample :
    (112 < ((0x3F800000 : Nat) >>> 23) &&& 0xff ∧ ((0x3F800000 : Nat) >>> 23) &&& 0xff < 143)
      ∧ exponentOf 0x3F800000
          ≠ ((((0x3F800000 : Nat) >>> 23) &&& 0xff : Nat) : Int) - (127 - 15) - 1
      ∧ (((float32ToFloat16 0x3F800000 >>> 10) &&& 0x1f : Nat) : Int) - 15
          ≠ (((((0x3F800000 : Nat) >>> 23) &&& 0xff : Nat) : Int) - 127) - 1 := by
  decide

/-- C10 as amended: the adjusted exponent is exactly the pure rebias between
the two formats, raw exponent minus `127 - 15`, with no extra `-1`; for inputs
in the normal regime the unbiased exponent of the result (exponent field minus
15) equals the unbiased exponent of the input (exponent field minus 127). -/
theorem C10_pure_rebias (x : Nat) (_hx : x < 4294967296) :
    exponentOf x = ((((x >>> 23) &&& 0xff : Nat) : Int)) - (127 - 15)
      ∧ (112 < (x >>> 23) &&& 0xff → (x >>> 23) &&& 0xff < 143 →
          (((float32ToFloat16 x >>> 10) &&& 0x1f : Nat) : Int) - 15
            = ((((x >>> 23) &&& 0xff : Nat) : Int)) - 127) := by
  have hraw : (x >>> 23) &&& 0xff = x / 8388608 % 256 := by
    rw [and_0xff, Nat.shiftRight_eq_div_pow]
  rw [hraw, exponentOf_eq]
  refine ⟨by omega, fun h1 h2 => ?_⟩
  rw [float32ToFloat16_mid x h1 h2, and_0x1f, Nat.shiftRight_eq_div_pow]
  have e5 : (x / 2147483648 % 2 * 32768 + (x / 8388608 % 256 - 112) * 1024 + x / 8192 % 1024)
      / 2 ^ 10 % 32 = x / 8388608 % 256 - 112 := by
    norm_num
    omega
  rw [e5]
  omega

theorem C10_pure_rebias_witness :
    (0x3F800000 : Nat) < 4294967296
      ∧ exponentOf 0x3F800000
          = ((((0x3F800000 : Nat) >>> 23) &&& 0xff : Nat) : Int) - (127 - 15) :=
  ⟨by decide, (C10_pure_rebias 0x3F800000 (by decide)).1⟩

/-! ## The scalar converter: shape of the results and discarded bits -/

/-- The result of the conversion in arithmetic form: the sign bit, then a
magnitude that is `0`, a packed normal exponent and mantissa, or `0x7c00`. -/
theorem float32ToFloat16_cases (x : Nat) :
    (x / 8388608 % 256 ≤ 112 ∧ float32ToFloat16 x = (x / 2147483648 % 2) * 32768)
      ∨ (112 < x / 8388608 % 256 ∧ x / 8388608 % 256 < 143
          ∧ float32ToFloat16 x
              = (x / 2147483648 % 2) * 32768 + (x / 8388608 % 256 - 112) * 1024
                  + x / 8192 % 1024)
      ∨ (143 ≤ x / 8388608 % 256
          ∧ float32ToFloat16 x = (x / 2147483648 % 2) * 32768 + 31744) := by
  rcases Nat.lt_or_ge 112 (x / 8388608 % 256) with h1 | h1
  · rcases Nat.lt_or_ge (x / 8388608 % 256) 143 with h2 | h2
    · exact Or.inr (Or.inl ⟨h1, h2, float32ToFloat16_mid x h1 h2⟩)
    · exact Or.inr (Or.inr ⟨h2, float32ToFloat16_high x h2⟩)
  · exact Or.inl ⟨h1, float32ToFloat16_low x h1⟩

/-- C11: for every 32-bit input the result is neither a binary16 NaN nor a
nonzero binary16 subnormal: whenever its exponent field (bits 14..10) is 31 or
0, its mantissa field (bits 9..0) is 0.  In particular an input with raw
exponent 255 (Infinity or NaN, any mantissa) gives a result with exponent field
31 and mantissa field 0. -/
theorem C11_no_nan_no_subnormal (x : Nat) (_hx : x < 4294967296) :
    (((float32ToFloat16 x >>> 10) &&& 0x1f = 31 ∨ (float32ToFloat16 x >>> 10) &&& 0x1f = 0) →
        float32ToFloat16 x &&& 0x03ff = 0)
      ∧ ((x >>> 23) &&& 0xff = 255 →
          (float32ToFloat16 x >>> 10) &&& 0x1f = 31 ∧ float32ToFloat16 x &&& 0x03ff = 0) := by
  simp only [and_0x1f, and_0x3ff, and_0xff, Nat.shiftRight_eq_div_pow]
  norm_num
  rcases float32ToFloat16_cases x with ⟨h1, h⟩ | ⟨h1, h2, h⟩ | ⟨h1, h⟩ <;> rw [h] <;>
    refine ⟨?_, ?_⟩ <;> omega

theorem C11_no_nan_no_subnormal_witness :
    (0x7FC00001 : Nat) < 4294967296
      ∧ ((0x7FC00001 : Nat) >>> 23) &&& 0xff = 255
      ∧ (float32ToFloat16 0x7FC00001 >>> 10) &&& 0x1f = 31
      ∧ float32ToFloat16 0x7FC00001 &&& 0x03ff = 0 :=
  ⟨by decide, by decide, (C11_no_nan_no_subnormal 0x7FC00001 (by decide)).2 (by decide)⟩

/-- The conversion reads its input only through bits 13 and above. -/
theorem float32ToFloat16_congr (x y : Nat) (h : x / 8192 = y / 8192) :
    float32ToFloat16 x = float32ToFloat16 y := by
  have e1 : x / 2147483648 % 2 = y / 2147483648 % 2 := by omega
  have e2 : x / 8388608 % 256 = y / 8388608 % 256 := by omega
  have e3 : x / 8192 % 1024 = y / 8192 % 1024 := by omega
  rcases float32ToFloat16_cases x with ⟨h1, hx⟩ | ⟨h1, h2, hx⟩ | ⟨h1, hx⟩
  · rw [hx, float32ToFloat16_low y (by omega), e1]
  · rw [hx, float32ToFloat16_mid y (by omega) (by omega), e1, e2, e3]
  · rw [hx, float32ToFloat16_high y (by omega), e1]

/-- C12: two 32-bit inputs that agree on bits 31..13 have the same result;
equivalently the result for `x` is the result for `x & 0xFFFFE000`.  The low 13
bits never influence the result, in any regime. -/
theorem C12_low_bits_ignored (x y : Nat) (hx : x < 4294967296) (_hy : y < 4294967296) :
    (x >>> 13 = y >>> 13 → float32ToFloat16 x = float32ToFloat16 y)
      ∧ float32ToFloat16 x = float32ToFloat16 (x &&& 0xFFFFE000) := by
  refine ⟨fun h => ?_, ?_⟩
  · rw [Nat.shiftRight_eq_div_pow, Nat.shiftRight_eq_div_pow] at h
    exact float32ToFloat16_congr x y (by norm_num at h; exact h)
  · rw [and_0xFFFFE000 x hx]
    exact float32ToFloat16_congr x (x / 8192 * 8192) (by omega)

theorem C12_low_bits_ignored_witness :
    (0x3F801FFF : Nat) < 4294967296 ∧ (0x3F800000 : Nat) < 4294967296
      ∧ (0x3F801FFF : Nat) >>> 13 = (0x3F800000 : Nat) >>> 13
      ∧ float32ToFloat16 0x3F801FFF = float32ToFloat16 0x3F800000 :=
  ⟨by decide, by decide, by decide,
    (C12_low_bits_ignored 0x3F801FFF 0x3F800000 (by decide) (by decide)).1 (by decide)⟩

/-! ## The scalar converter: order, image, sign symmetry -/

/-- C13: the conversion is monotone on bit patterns: for 32-bit inputs
`x ≤ y` (as unsigned integers) the results satisfy
`float32ToFloat16 x ≤ float32ToFloat16 y`.  The order is weakly preserved
across the two regime boundaries, as at `0x387FFFFF`, `0x38800000` and at
`0x477FFFFF`, `0x47800000`. -/
theorem C13_monotone (x y : Nat) (hx : x < 4294967296) (hy : y < 4294967296) (hxy : x ≤ y) :
    float32ToFloat16 x ≤ float32ToFloat16 y
      ∧ float32ToFloat16 0x387FFFFF = 0x0000 ∧ float32ToFloat16 0x38800000 = 0x0400
      ∧ float32ToFloat16 0x477FFFFF = 0x7BFF ∧ float32ToFloat16 0x47800000 = 0x7C00 := by
  refine ⟨?_, by decide, by decide, by decide, by decide⟩
  obtain ⟨s, e, m, r, hs, he, hm, hr, rfl⟩ := split_fields x hx
  obtain ⟨t, g, n, q, ht, hg, hn, hq, rfl⟩ := split_fields y hy
  have a1 : (s * 2147483648 + e * 8388608 + (m * 8192 + r)) / 2147483648 % 2 = s := by omega
  have a2 : (s * 2147483648 + e * 8388608 + (m * 8192 + r)) / 8388608 % 256 = e := by omega
  have a3 : (s * 2147483648 + e * 8388608 + (m * 8192 + r)) / 8192 % 1024 = m := by omega
  have b1 : (t * 2147483648 + g * 8388608 + (n * 8192 + q)) / 2147483648 % 2 = t := by omega
  have b2 : (t * 2147483648 + g * 8388608 + (n * 8192 + q)) / 8388608 % 256 = g := by omega
  have b3 : (t * 2147483648 + g * 8388608 + (n * 8192 + q)) / 8192 % 1024 = n := by omega
  have cx := float32ToFloat16_cases (s * 2147483648 + e * 8388608 + (m * 8192 + r))
  have cy := float32ToFloat16_cases (t * 2147483648 + g * 8388608 + (n * 8192 + q))
  rw [a1, a2, a3] at cx
  rw [b1, b2, b3] at cy
  rcases cx with ⟨h1, hfx⟩ | ⟨h1, h2, hfx⟩ | ⟨h1, hfx⟩ <;>
    rcases cy with ⟨k1, hfy⟩ | ⟨k1, k2, hfy⟩ | ⟨k1, hfy⟩ <;>
    rw [hfx, hfy] <;> omega

theorem C13_monotone_witness :
    (0x477FFFFF : Nat) < 4294967296 ∧ (0x47800000 : Nat) < 4294967296
      ∧ (0x477FFFFF : Nat) ≤ 0x47800000
      ∧ float32ToFloat16 0x477FFFFF ≤ float32ToFloat16 0x47800000 :=
  ⟨by decide, by decide, by decide,
    (C13_monotone 0x477FFFFF 0x47800000 (by decide) (by decide) (by decide)).1⟩

/-- A sign bit, an eight-bit exponent and a 23-bit mantissa occupy disjoint bit
ranges of a 32-bit pattern, so or-ing them is adding them. -/
theorem pack32_eq (s e m : Nat) (he : e < 256) (hm : m < 8388608) :
    s * 2147483648 ||| e * 8388608 ||| m = s * 2147483648 + e * 8388608 + m := by
  have e1 : s * 2147483648 ||| e * 8388608 = s * 2147483648 + e * 8388608 := by
    have := lor_eq_add 31 s (e * 8388608) (by norm_num; omega)
    norm_num at this
    rw [Nat.mul_comm 2147483648 s] at this
    exact this
  have e2 : s * 2147483648 + e * 8388608 ||| m = s * 2147483648 + e * 8388608 + m := by
    have := lor_eq_add 23 (s * 256 + e) m (by norm_num; omega)
    norm_num at this
    have e3 : 8388608 * (s * 256 + e) = s * 2147483648 + e * 8388608 := by omega
    rw [e3] at this
    exact this
  rw [e1, e2]

/-- The binary32 pattern obtained by widening a binary16 pattern, in arithmetic
form. -/
theorem widen_eq (h : Nat) :
    ((h &&& 0x8000) <<< 16) ||| ((((h >>> 10) &&& 0x1f) + 112) <<< 23) ||| ((h &&& 0x03ff) <<< 13)
      = (h / 32768 % 2) * 2147483648 + (h / 1024 % 32 + 112) * 8388608 + (h % 1024) * 8192 := by
  rw [and_0x8000, and_0x1f, and_0x3ff, Nat.shiftRight_eq_div_pow, Nat.shiftLeft_eq,
    Nat.shiftLeft_eq, Nat.shiftLeft_eq]
  have e1 : h / 32768 % 2 * 32768 * 2 ^ 16 = (h / 32768 % 2) * 2147483648 := by omega
  have e2 : (h / 2 ^ 10 % 32 + 112) * 2 ^ 23 = (h / 1024 % 32 + 112) * 8388608 := by
    norm_num
  have e3 : h % 1024 * 2 ^ 13 = (h % 1024) * 8192 := by norm_num
  rw [e1, e2, e3]
  exact pack32_eq _ _ _ (by omega) (by omega)

/-- C14: every normal binary16 pattern is reproduced by widening then
converting: for a 16-bit `h` whose exponent field `E` lies in `1..30`, the
32-bit pattern `((h & 0x8000) << 16) | ((E + 112) << 23) | ((h & 0x03ff) << 13)`
converts back to `h`.  With the signed zeros and signed infinities reached
through the other two branches, every normal, zero and infinite binary16
pattern is in the image of the conversion. -/
theorem C14_widen_round_trip (h : Nat) (hh : h < 65536)
    (h1 : 1 ≤ (h >>> 10) &&& 0x1f) (h2 : (h >>> 10) &&& 0x1f ≤ 30) :
    ((h &&& 0x8000) <<< 16) ||| ((((h >>> 10) &&& 0x1f) + 112) <<< 23) ||| ((h &&& 0x03ff) <<< 13)
        < 4294967296
      ∧ float32ToFloat16
          (((h &&& 0x8000) <<< 16) ||| ((((h >>> 10) &&& 0x1f) + 112) <<< 23)
            ||| ((h &&& 0x03ff) <<< 13)) = h
      ∧ float32ToFloat16 0x00000000 = 0x0000 ∧ float32ToFloat16 0x80000000 = 0x8000
      ∧ float32ToFloat16 0x7F800000 = 0x7C00 ∧ float32ToFloat16 0xFF800000 = 0xFC00 := by
  refine ⟨?_, ?_, by decide, by decide, by decide, by decide⟩
  · rw [widen_eq]
    omega
  · rw [and_0x1f, Nat.shiftRight_eq_div_pow] at h1 h2
    norm_num at h1 h2
    rw [widen_eq]
    rw [float32ToFloat16_mid _ (by omega) (by omega)]
    omega

theorem C14_widen_round_trip_witness :
    (0xBE4D : Nat) < 65536
      ∧ 1 ≤ ((0xBE4D : Nat) >>> 10) &&& 0x1f ∧ ((0xBE4D : Nat) >>> 10) &&& 0x1f ≤ 30
      ∧ float32ToFloat16
          ((((0xBE4D : Nat) &&& 0x8000) <<< 16) ||| (((((0xBE4D : Nat) >>> 10) &&& 0x1f) + 112) <<< 23)
            ||| (((0xBE4D : Nat) &&& 0x03ff) <<< 13)) = 0xBE4D :=
  ⟨by decide, by decide, by decide,
    (C14_widen_round_trip 0xBE4D (by decide) (by decide) (by decide)).2.1⟩

/-- Xor with a single bit flips that bit and leaves the lower bits alone. -/
theorem xor_two_pow (i s b : Nat) (hs : s < 2) (hb : b < 2 ^ i) :
    (2 ^ i * s + b) ^^^ 2 ^ i = 2 ^ i * (1 - s) + b := by
  apply Nat.eq_of_testBit_eq
  intro j
  rw [Nat.testBit_xor, Nat.testBit_mul_pow_two_add s hb, Nat.testBit_mul_pow_two_add (1 - s) hb,
    Nat.testBit_two_pow]
  by_cases hj : j < i
  · have hne : ¬ i = j := by omega
    simp [hj, hne]
  · rw [if_neg hj, if_neg hj]
    have hs2 : s = 0 ∨ s = 1 := by omega
    rcases hs2 with rfl | rfl
    · by_cases hij : i = j
      · subst hij
        simp
      · have h0 : j - i ≠ 0 := by omega
        have h1 : Nat.testBit 1 (j - i) = false := by
          rw [← Bool.not_eq_true, Nat.testBit_one_eq_true_iff_self_eq_zero]
          exact h0
        simp [hij, h1]
    · by_cases hij : i = j
      · subst hij
        simp
      · have h0 : j - i ≠ 0 := by omega
        have h1 : Nat.testBit 1 (j - i) = false := by
          rw [← Bool.not_eq_true, Nat.testBit_one_eq_true_iff_self_eq_zero]
          exact h0
        simp [hij, h1]

/-- A multiple of `2^i` and a value below `2^i` have no bit in common. -/
theorem and_mul_two_pow_of_lt (i a b : Nat) (hb : b < 2 ^ i) : 2 ^ i * a &&& b = 0 := by
  apply Nat.eq_of_testBit_eq
  intro j
  rw [Nat.testBit_and, Nat.testBit_mul_pow_two, Nat.zero_testBit]
  by_cases hj : i ≤ j
  · have hlt : b < 2 ^ j := Nat.lt_of_lt_of_le hb (Nat.pow_le_pow_right (by norm_num) hj)
    rw [Nat.testBit_lt_two_pow hlt]
    simp
  · simp [hj]

theorem xor_0x80000000 (s b : Nat) (hs : s < 2) (hb : b < 2147483648) :
    (s * 2147483648 + b) ^^^ 0x80000000 = (1 - s) * 2147483648 + b := by
  have h := xor_two_pow 31 s b hs (by norm_num; exact hb)
  have ea : 2 ^ 31 * s + b = s * 2147483648 + b := by omega
  have eb : 2 ^ 31 * (1 - s) + b = (1 - s) * 2147483648 + b := by omega
  have ec : (2 : Nat) ^ 31 = 0x80000000 := by norm_num
  rw [ea, eb, ec] at h
  exact h

theorem xor_0x8000 (s b : Nat) (hs : s < 2) (hb : b < 32768) :
    (s * 32768 + b) ^^^ 0x8000 = (1 - s) * 32768 + b := by
  have h := xor_two_pow 15 s b hs (by norm_num; exact hb)
  have ea : 2 ^ 15 * s + b = s * 32768 + b := by omega
  have eb : 2 ^ 15 * (1 - s) + b = (1 - s) * 32768 + b := by omega
  have ec : (2 : Nat) ^ 15 = 0x8000 := by norm_num
  rw [ea, eb, ec] at h
  exact h

/-- The result is the sign bit plus a 15-bit magnitude that does not depend on
the sign bit of the input. -/
theorem float32ToFloat16_sign_mag (e m r : Nat) (he : e < 256) (hm : m < 1024) (hr : r < 8192) :
    ∃ mag, mag < 32768 ∧ ∀ t, t < 2 →
      float32ToFloat16 (t * 2147483648 + e * 8388608 + (m * 8192 + r)) = t * 32768 + mag := by
  rcases Nat.lt_or_ge 112 e with h1 | h1
  · rcases Nat.lt_or_ge e 143 with h2 | h2
    · refine ⟨(e - 112) * 1024 + m, by omega, fun t ht => ?_⟩
      rw [float32ToFloat16_mid _ (by omega) (by omega)]
      omega
    · refine ⟨31744, by omega, fun t ht => ?_⟩
      rw [float32ToFloat16_high _ (by omega)]
      omega
  · refine ⟨0, by omega, fun t ht => ?_⟩
    rw [float32ToFloat16_low _ (by omega)]
    omega

/-- C15: flipping the sign bit of a 32-bit input flips exactly the sign bit of
the result: `float32ToFloat16 (x ^ 0x80000000) = float32ToFloat16 x ^ 0x8000`,
so the low 15 bits of the result do not depend on the sign of the input. -/
theorem C15_sign_flip (x : Nat) (hx : x < 4294967296) :
    float32ToFloat16 (x ^^^ 0x80000000) = float32ToFloat16 x ^^^ 0x8000
      ∧ float32ToFloat16 (x ^^^ 0x80000000) &&& 0x7fff = float32ToFloat16 x &&& 0x7fff := by
  obtain ⟨s, e, m, r, hs, he, hm, hr, rfl⟩ := split_fields x hx
  obtain ⟨mag, hmag, hf⟩ := float32ToFloat16_sign_mag e m r he hm hr
  have ex : (s * 2147483648 + e * 8388608 + (m * 8192 + r)) ^^^ 0x80000000
      = (1 - s) * 2147483648 + e * 8388608 + (m * 8192 + r) := by
    rw [Nat.add_assoc, xor_0x80000000 s _ hs (by omega), Nat.add_assoc]
  have e7 : ∀ y : Nat, y &&& 0x7fff = y % 32768 := fun y =>
    Nat.and_pow_two_sub_one_eq_mod y 15
  rw [ex, hf s hs, hf (1 - s) (by omega), xor_0x8000 s mag hs hmag, e7, e7]
  exact ⟨rfl, by omega⟩

theorem C15_sign_flip_witness :
    (0x3F801234 : Nat) < 4294967296
      ∧ float32ToFloat16 ((0x3F801234 : Nat) ^^^ 0x80000000)
          = float32ToFloat16 0x3F801234 ^^^ 0x8000 :=
  ⟨by decide, (C15_sign_flip 0x3F801234 (by decide)).1⟩

/-! ## The normal branch: no bit is lost on return -/

theorem int_land_natCast (a b : Nat) : Int.land (a : Int) (b : Int) = ((a &&& b : Nat) : Int) :=
  rfl

/-- C16: for every 32-bit input that reaches the last branch (`exponent` neither
`≤ 0` nor `≥ 31`), `exponent` is in `1..30`, `exponent << 10` is a non-negative
value within `0x0400..0x7800`, `mantissa ≤ 0x03ff`, `sign` is `0` or `0x8000`,
the three operands have pairwise no bit in common, and the `int` value
`sign | (exponent << 10) | mantissa` lies in `0 .. 2^16 - 1`, so the conversion
to `uint16_t` on return keeps it as it is. -/
theorem C16_no_truncation (x : Nat) (_hx : x < 4294967296)
    (h1 : ¬ exponentOf x ≤ 0) (h2 : ¬ exponentOf x ≥ 31) :
    (1 ≤ exponentOf x ∧ exponentOf x ≤ 30)
      ∧ (0x0400 ≤ exponentOf x <<< (10 : Int) ∧ exponentOf x <<< (10 : Int) ≤ 0x7800)
      ∧ mantissaOf x ≤ 0x03ff
      ∧ (signOf x = 0 ∨ signOf x = 0x8000)
      ∧ Int.land (signOf x : Int) (exponentOf x <<< (10 : Int)) = 0
      ∧ Int.land (signOf x : Int) (mantissaOf x : Int) = 0
      ∧ Int.land (exponentOf x <<< (10 : Int)) (mantissaOf x : Int) = 0
      ∧ 0 ≤ Int.lor (Int.lor (signOf x : Int) (exponentOf x <<< (10 : Int))) (mantissaOf x : Int)
      ∧ Int.lor (Int.lor (signOf x : Int) (exponentOf x <<< (10 : Int))) (mantissaOf x : Int)
          < 65536
      ∧ ((intToUint16
            (Int.lor (Int.lor (signOf x : Int) (exponentOf x <<< (10 : Int))) (mantissaOf x : Int))
              : Nat) : Int)
          = Int.lor (Int.lor (signOf x : Int) (exponentOf x <<< (10 : Int))) (mantissaOf x : Int)
      ∧ float32ToFloat16 x
          = intToUint16
              (Int.lor (Int.lor (signOf x : Int) (exponentOf x <<< (10 : Int)))
                (mantissaOf x : Int)) := by
  have hret : float32ToFloat16 x
      = intToUint16
          (Int.lor (Int.lor (signOf x : Int) (exponentOf x <<< (10 : Int)))
            (mantissaOf x : Int)) := by
    unfold float32ToFloat16
    simp only []
    rw [if_neg h1, if_neg h2]
  rw [hret]
  rw [exponentOf_eq] at h1 h2
  have h3 : ((x / 8388608 % 256 : Nat) : Int) - 112 = ((x / 8388608 % 256 - 112 : Nat) : Int) := by
    omega
  rw [exponentOf_eq, signOf_eq, mantissaOf_eq, h3, int_shiftLeft_ten]
  have hE : x / 8388608 % 256 - 112 < 31 := by omega
  have hE1 : 1 ≤ x / 8388608 % 256 - 112 := by omega
  have hs : x / 2147483648 % 2 < 2 := by omega
  have hm : x / 8192 % 1024 < 1024 := by omega
  generalize x / 8388608 % 256 - 112 = E at hE hE1 ⊢
  generalize x / 2147483648 % 2 = s at hs ⊢
  generalize x / 8192 % 1024 = m at hm ⊢
  have d1 : s * 32768 &&& E * 1024 = 0 := by
    have h := and_mul_two_pow_of_lt 15 s (E * 1024) (by norm_num; omega)
    have ea : 2 ^ 15 * s = s * 32768 := by omega
    rw [ea] at h
    exact h
  have d2 : s * 32768 &&& m = 0 := by
    have h := and_mul_two_pow_of_lt 15 s m (by norm_num; omega)
    have ea : 2 ^ 15 * s = s * 32768 := by omega
    rw [ea] at h
    exact h
  have d3 : E * 1024 &&& m = 0 := by
    have h := and_mul_two_pow_of_lt 10 E m (by norm_num; omega)
    have ea : 2 ^ 10 * E = E * 1024 := by omega
    rw [ea] at h
    exact h
  rw [int_land_natCast, int_land_natCast, int_land_natCast, int_lor_natCast, int_lor_natCast,
    intToUint16_natCast, d1, d2, d3, pack_eq s E m (by omega) hm]
  refine ⟨⟨by omega, by omega⟩, ⟨by omega, by omega⟩, by omega, by omega, rfl, rfl, rfl,
    by omega, by omega, by omega, rfl⟩

theorem C16_no_truncation_witness :
    (0x3F801234 : Nat) < 4294967296
      ∧ ¬ exponentOf 0x3F801234 ≤ 0 ∧ ¬ exponentOf 0x3F801234 ≥ 31
      ∧ float32ToFloat16 0x3F801234
          = intToUint16
              (Int.lor (Int.lor (signOf 0x3F801234 : Int) (exponentOf 0x3F801234 <<< (10 : Int)))
                (mantissaOf 0x3F801234 : Int)) :=
  ⟨by decide, by decide, by decide,
    (C16_no_truncation 0x3F801234 (by decide) (by decide) (by decide)).2.2.2.2.2.2.2.2.2.2⟩

/-! ## The buffer converter: loads, stores and the loop -/

/-- Every result of the scalar converter is a 16-bit value. -/
theorem float32ToFloat16_lt (x : Nat) : float32ToFloat16 x < 65536 := by
  rcases float32ToFloat16_cases x with ⟨_, h⟩ | ⟨_, _, h⟩ | ⟨_, h⟩ <;> rw [h] <;> omega

theorem byteAt_congr (m1 m2 : List Nat) (a : Nat) (h : m1[a]? = m2[a]?) :
    byteAt m1 a = byteAt m2 a := by
  unfold byteAt
  rw [h]

/-- A 32-bit load depends only on the size of memory and on its four bytes. -/
theorem load32_congr (le : Bool) (m1 m2 : List Nat) (a : Nat) (hl : m1.length = m2.length)
    (h : ∀ b, a ≤ b → b < a + 4 → m1[b]? = m2[b]?) :
    load32 le m1 a = load32 le m2 a := by
  unfold load32
  rw [hl, byteAt_congr m1 m2 a (h a (by omega) (by omega)),
    byteAt_congr m1 m2 (a + 1) (h _ (by omega) (by omega)),
    byteAt_congr m1 m2 (a + 2) (h _ (by omega) (by omega)),
    byteAt_congr m1 m2 (a + 3) (h _ (by omega) (by omega))]

/-- A 16-bit load depends only on the size of memory and on its two bytes. -/
theorem load16_congr (le : Bool) (m1 m2 : List Nat) (a : Nat) (hl : m1.length = m2.length)
    (h : ∀ b, a ≤ b → b < a + 2 → m1[b]? = m2[b]?) :
    load16 le m1 a = load16 le m2 a := by
  unfold load16
  rw [hl, byteAt_congr m1 m2 a (h a (by omega) (by omega)),
    byteAt_congr m1 m2 (a + 1) (h _ (by omega) (by omega))]

/-- A 32-bit load inside memory returns a value. -/
theorem load32_some (le : Bool) (m : List Nat) (a : Nat) (ha : a + 4 ≤ m.length) :
    ∃ v, load32 le m a = some v := by
  unfold load32
  rw [if_pos ha]
  exact ⟨_, rfl⟩

/-- A 16-bit store inside memory succeeds, keeps the size of memory, changes no
byte but the two it writes, and is read back by a 16-bit load. -/
theorem store16_spec (le : Bool) (m : List Nat) (a v : Nat) (ha : a + 2 ≤ m.length) :
    ∃ m1, store16 le m a v = some m1 ∧ m1.length = m.length
      ∧ (∀ b, b ≠ a → b ≠ a + 1 → m1[b]? = m[b]?)
      ∧ load16 le m1 a = some (v % 65536) := by
  unfold store16
  rw [if_pos ha]
  refine ⟨_, rfl, ?_, ?_, ?_⟩
  · cases le <;> simp
  · intro b h1 h2
    cases le <;> simp <;>
      rw [List.getElem?_set_ne (by omega), List.getElem?_set_ne (by omega)]
  · unfold load16 byteAt
    cases le
    · simp only [Bool.false_eq_true, if_false, List.length_set, if_pos ha]
      rw [List.getElem?_set_self (by simp; omega), List.getElem?_set_ne (by omega),
        List.getElem?_set_self (by omega)]
      simp only [Option.getD_some]
      congr 1
      omega
    · simp only [if_true, List.length_set, if_pos ha]
      rw [List.getElem?_set_self (by simp; omega), List.getElem?_set_ne (by omega),
        List.getElem?_set_self (by omega)]
      simp only [Option.getD_some]
      congr 1
      omega

/-- One iteration of the loop. -/
theorem convertLoop_step (le : Bool) (src dst len i : Nat) (m m1 : List Nat) (v : Nat)
    (hi : i < len) (hl : load32 le m (src + 4 * i) = some v)
    (hs : store16 le m (dst + 2 * i) (float32ToFloat16 v) = some m1) :
    convertLoop le src dst len i m = convertLoop le src dst len (i + 1) m1 := by
  rw [convertLoop, if_pos hi, hl]
  simp only []
  rw [hs]

/-- The loop exit. -/
theorem convertLoop_done (le : Bool) (src dst len i : Nat) (m : List Nat) (hi : ¬ i < len) :
    convertLoop le src dst len i m = some m := by
  rw [convertLoop, if_neg hi]

/-- Frame of the loop, whatever the layout of the two buffers: started at index
`i ≤ len` with `len` elements of both buffers inside memory, the loop completes,
keeps the size of memory and changes no byte outside output positions
`i .. len - 1`. -/
theorem convertLoop_frame (le : Bool) (src dst len : Nat) :
    ∀ (n i : Nat) (m : List Nat), n = len - i → i ≤ len → src + 4 * len ≤ m.length →
      dst + 2 * len ≤ m.length →
      ∃ out, convertLoop le src dst len i m = some out ∧ out.length = m.length
        ∧ (∀ b, b < dst + 2 * i ∨ dst + 2 * len ≤ b → out[b]? = m[b]?) := by
  intro n
  induction n with
  | zero =>
    intro i m hn hi _ _
    exact ⟨m, convertLoop_done le src dst len i m (by omega), rfl, fun _ _ => rfl⟩
  | succ k ih =>
    intro i m hn hi hs hd
    obtain ⟨v, hv⟩ := load32_some le m (src + 4 * i) (by omega)
    obtain ⟨m1, h1, h2, h3, _⟩ :=
      store16_spec le m (dst + 2 * i) (float32ToFloat16 v) (by omega)
    obtain ⟨out, g1, g2, g3⟩ := ih (i + 1) m1 (by omega) (by omega) (by omega) (by omega)
    refine ⟨out, ?_, by omega, fun b hb => ?_⟩
    · rw [convertLoop_step le src dst len i m m1 v (by omega) hv h1]
      exact g1
    · rw [g3 b (by omega)]
      exact h3 b (by omega) (by omega)

/-- Values written by the loop, when no output element shares a byte with an
input element of higher index: if the input elements from index `i` on are
still as in the initial memory `m0`, every output element at `i .. len - 1`
ends as the conversion of the initial input element of the same index. -/
theorem convertLoop_values (le : Bool) (src dst len : Nat) (m0 : List Nat)
    (H : ∀ i j, i < j → j < len → dst + 2 * i + 2 ≤ src + 4 * j ∨ src + 4 * j + 4 ≤ dst + 2 * i) :
    ∀ (n i : Nat) (m out : List Nat), n = len - i → i ≤ len → src + 4 * len ≤ m.length →
      dst + 2 * len ≤ m.length →
      (∀ j, i ≤ j → j < len → load32 le m (src + 4 * j) = load32 le m0 (src + 4 * j)) →
      convertLoop le src dst len i m = some out →
      ∀ k, i ≤ k → k < len →
        load16 le out (dst + 2 * k) = (load32 le m0 (src + 4 * k)).map float32ToFloat16 := by
  intro n
  induction n with
  | zero =>
    intro i m out hn hi _ _ _ _ k hk1 hk2
    omega
  | succ p ih =>
    intro i m out hn hi hs hd hsrc hout k hk1 hk2
    obtain ⟨v, hv⟩ := load32_some le m (src + 4 * i) (by omega)
    obtain ⟨m1, h1, h2, h3, h4⟩ :=
      store16_spec le m (dst + 2 * i) (float32ToFloat16 v) (by omega)
    rw [convertLoop_step le src dst len i m m1 v (by omega) hv h1] at hout
    rcases Nat.eq_or_lt_of_le hk1 with hk | hk
    · subst hk
      obtain ⟨out1, g1, g2, g3⟩ :=
        convertLoop_frame le src dst len (len - (i + 1)) (i + 1) m1 rfl (by omega)
          (by omega) (by omega)
      rw [g1] at hout
      cases hout
      rw [load16_congr le out m1 (dst + 2 * i) g2 (fun b hb1 hb2 => g3 b (by omega)), h4,
        ← hsrc i (Nat.le_refl _) hk2, hv, Nat.mod_eq_of_lt (float32ToFloat16_lt v)]
      rfl
    · refine ih (i + 1) m1 out (by omega) (by omega) (by omega) (by omega) ?_ hout k (by omega) hk2
      intro j hj1 hj2
      rw [← hsrc j (by omega) hj2]
      apply load32_congr le m1 m (src + 4 * j) h2
      intro b hb1 hb2
      have := H i j (by omega) hj2
      exact h3 b (by omega) (by omega)

/-! ## The buffer converter: contract and frame -/

/-- Buffers that do not overlap: no output element shares a byte with any input
element. -/
theorem no_clobber_of_disjoint (src dst len : Nat)
    (h : src + 4 * len ≤ dst ∨ dst + 2 * len ≤ src) :
    ∀ i j, i < j → j < len → dst + 2 * i + 2 ≤ src + 4 * j ∨ src + 4 * j + 4 ≤ dst + 2 * i := by
  intro i j h1 h2
  omega

/-- Conversion in place (`dst` and `src` hold the same address): output element
`i` lies below every input element of higher index. -/
theorem no_clobber_in_place (src len : Nat) :
    ∀ i j, i < j → j < len → src + 2 * i + 2 ≤ src + 4 * j ∨ src + 4 * j + 4 ≤ src + 2 * i := by
  intro i j h1 h2
  omega

/-- C4 fails on the code when the buffers overlap: with two floats `1.0f` at
address 0 and `dst = (uint16_t*)&src[1]` (address 4), `len = 2` is within both
buffers and the call completes, but the store to `dst[0]` overwrites half of
`src[1]` before it is read, and `dst[1]` ends as `0x3C01` (little-endian) or
`0x2000` (big-endian), not `float32ToFloat16 (0x3F800000) = 0x3C00`. -/
theorem C4_counterexample :
    (0 + 4 * 2 ≤ [0, 0, 0x80, 0x3F, 0, 0, 0x80, 0x3F].length
        ∧ 4 + 2 * 2 ≤ [0, 0, 0x80, 0x3F, 0, 0, 0x80, 0x3F].length
        ∧ load32 true [0, 0, 0x80, 0x3F, 0, 0, 0x80, 0x3F] (0 + 4 * 1) = some 0x3F800000
        ∧ convertFloat32ToFloat16 true [0, 0, 0x80, 0x3F, 0, 0, 0x80, 0x3F] 0 4 2
            = some [0, 0, 0x80, 0x3F, 0x00, 0x3C, 0x01, 0x3C]
        ∧ load16 true [0, 0, 0x80, 0x3F, 0x00, 0x3C, 0x01, 0x3C] (4 + 2 * 1) = some 0x3C01
        ∧ float32ToFloat16 0x3F800000 ≠ 0x3C01)
      ∧ (load32 false [0x3F, 0x80, 0, 0, 0x3F, 0x80, 0, 0] (0 + 4 * 1) = some 0x3F800000
        ∧ convertFloat32ToFloat16 false [0x3F, 0x80, 0, 0, 0x3F, 0x80, 0, 0] 0 4 2
            = some [0x3F, 0x80, 0, 0, 0x3C, 0x00, 0x20, 0x00]
        ∧ load16 false [0x3F, 0x80, 0, 0, 0x3C, 0x00, 0x20, 0x00] (4 + 2 * 1) = some 0x2000
        ∧ float32ToFloat16 0x3F800000 ≠ 0x2000) := by
  refine ⟨⟨by decide, by decide, by decide, ?_, by decide, by decide⟩,
    ⟨by decide, ?_, by decide, by decide⟩⟩
  · unfold convertFloat32ToFloat16
    rw [convertLoop_step true 0 4 2 0 _ [0, 0, 0x80, 0x3F, 0x00, 0x3C, 0x80, 0x3F] 0x3F800000
        (by decide) (by decide) (by decide),
      convertLoop_step true 0 4 2 1 _ [0, 0, 0x80, 0x3F, 0x00, 0x3C, 0x01, 0x3C] 0x3F803C00
        (by decide) (by decide) (by decide)]
    exact convertLoop_done true 0 4 2 2 _ (by decide)
  · unfold convertFloat32ToFloat16
    rw [convertLoop_step false 0 4 2 0 _ [0x3F, 0x80, 0, 0, 0x3C, 0x00, 0, 0] 0x3F800000
        (by decide) (by decide) (by decide),
      convertLoop_step false 0 4 2 1 _ [0x3F, 0x80, 0, 0, 0x3C, 0x00, 0x20, 0x00] 0x3C000000
        (by decide) (by decide) (by decide)]
    exact convertLoop_done false 0 4 2 2 _ (by decide)

/-- C4 as amended: when `len` is within both buffers and no output element
`dst[i]` shares a byte with an input element `src[j]` of higher index `j > i`,
the call completes and every output element below `len` is the scalar
conversion of the input element that was at the same index before the call, in
order.  The condition holds when the two buffers do not overlap, and when `dst`
and `src` hold the same address. -/
theorem C4_elementwise (le : Bool) (m : List Nat) (src dst n k len : Nat)
    (hsrc : src + 4 * n ≤ m.length) (hdst : dst + 2 * k ≤ m.length)
    (hn : len ≤ n) (hk : len ≤ k) :
    ((∀ i j, i < j → j < len →
          dst + 2 * i + 2 ≤ src + 4 * j ∨ src + 4 * j + 4 ≤ dst + 2 * i) →
        ∃ out, convertFloat32ToFloat16 le m src dst len = some out
          ∧ ∀ i, i < len → ∃ v, load32 le m (src + 4 * i) = some v
              ∧ load16 le out (dst + 2 * i) = some (float32ToFloat16 v))
      ∧ (src + 4 * len ≤ dst ∨ dst + 2 * len ≤ src →
          ∀ i j, i < j → j < len →
            dst + 2 * i + 2 ≤ src + 4 * j ∨ src + 4 * j + 4 ≤ dst + 2 * i)
      ∧ (dst = src →
          ∀ i j, i < j → j < len →
            dst + 2 * i + 2 ≤ src + 4 * j ∨ src + 4 * j + 4 ≤ dst + 2 * i) := by
  refine ⟨fun H => ?_, no_clobber_of_disjoint src dst len, fun h => ?_⟩
  · obtain ⟨out, h1, _, _⟩ :=
      convertLoop_frame le src dst len len 0 m rfl (Nat.zero_le _) (by omega) (by omega)
    refine ⟨out, h1, fun i hi => ?_⟩
    obtain ⟨v, hv⟩ := load32_some le m (src + 4 * i) (by omega)
    refine ⟨v, hv, ?_⟩
    rw [convertLoop_values le src dst len m H len 0 m out rfl (Nat.zero_le _) (by omega)
      (by omega) (fun _ _ _ => rfl) h1 i (Nat.zero_le _) hi, hv]
    rfl
  · rw [h]
    exact no_clobber_in_place src len

theorem C4_elementwise_witness :
    0 + 4 * 2 ≤ [0, 0, 0x80, 0x3F, 0, 0, 0, 0xC0, 7, 7, 7, 7].length
      ∧ 8 + 2 * 2 ≤ [0, 0, 0x80, 0x3F, 0, 0, 0, 0xC0, 7, 7, 7, 7].length
      ∧ 2 ≤ 2
      ∧ (∀ i j, i < j → j < 2 → 8 + 2 * i + 2 ≤ 0 + 4 * j ∨ 0 + 4 * j + 4 ≤ 8 + 2 * i)
      ∧ ∃ out, convertFloat32ToFloat16 true [0, 0, 0x80, 0x3F, 0, 0, 0, 0xC0, 7, 7, 7, 7] 0 8 2
            = some out
          ∧ ∀ i, i < 2 → ∃ v,
              load32 true [0, 0, 0x80, 0x3F, 0, 0, 0, 0xC0, 7, 7, 7, 7] (0 + 4 * i) = some v
                ∧ load16 true out (8 + 2 * i) = some (float32ToFloat16 v) :=
  ⟨by decide, by decide, by decide, fun i j h1 h2 => by omega,
    (C4_elementwise true [0, 0, 0x80, 0x3F, 0, 0, 0, 0xC0, 7, 7, 7, 7] 0 8 2 2 2
      (by decide) (by decide) (by decide) (by decide)).1 (fun i j h1 h2 => by omega)⟩

/-- C5: with a count of 0 the call completes, whatever the memory and the two
pointers are, and memory is exactly as before: no output element is written. -/
theorem C5_empty_count (le : Bool) (m : List Nat) (src dst : Nat) :
    convertFloat32ToFloat16 le m src dst 0 = some m := by
  unfold convertFloat32ToFloat16
  exact convertLoop_done le src dst 0 0 m (Nat.lt_irrefl 0)

/-- C6 fails on the code when the buffers overlap: converting `1.0f, -2.0f` in
place (`dst` and `src` both at address 0, `len = 2` within both buffers)
completes and leaves `src[0]` as `0xC0003C00` instead of `0x3F800000`. -/
theorem C6_counterexample :
    0 + 4 * 2 ≤ [0, 0, 0x80, 0x3F, 0, 0, 0, 0xC0].length
      ∧ 0 + 2 * 2 ≤ [0, 0, 0x80, 0x3F, 0, 0, 0, 0xC0].length
      ∧ convertFloat32ToFloat16 true [0, 0, 0x80, 0x3F, 0, 0, 0, 0xC0] 0 0 2
          = some [0x00, 0x3C, 0x00, 0xC0, 0, 0, 0, 0xC0]
      ∧ load32 true [0, 0, 0x80, 0x3F, 0, 0, 0, 0xC0] (0 + 4 * 0) = some 0x3F800000
      ∧ load32 true [0x00, 0x3C, 0x00, 0xC0, 0, 0, 0, 0xC0] (0 + 4 * 0) = some 0xC0003C00 := by
  refine ⟨by decide, by decide, ?_, by decide, by decide⟩
  unfold convertFloat32ToFloat16
  rw [convertLoop_step true 0 0 2 0 _ [0x00, 0x3C, 0x80, 0x3F, 0, 0, 0, 0xC0] 0x3F800000
      (by decide) (by decide) (by decide),
    convertLoop_step true 0 0 2 1 _ [0x00, 0x3C, 0x00, 0xC0, 0, 0, 0, 0xC0] 0xC0000000
      (by decide) (by decide) (by decide)]
  exact convertLoop_done true 0 0 2 2 _ (by decide)

/-- C6 as amended: when `len` is within both buffers, whatever their layout, the
call completes and changes no byte of memory outside output positions
`0 .. len - 1`: memory keeps its size, every `dst[j]` with `j ≥ len` is
unchanged, and every input element that shares no byte with output positions
`0 .. len - 1` is unchanged, so the whole input buffer is unchanged when it
does not overlap the written output positions. -/
theorem C6_frame (le : Bool) (m : List Nat) (src dst n k len : Nat)
    (hsrc : src + 4 * n ≤ m.length) (hdst : dst + 2 * k ≤ m.length)
    (hn : len ≤ n) (hk : len ≤ k) :
    ∃ out, convertFloat32ToFloat16 le m src dst len = some out
      ∧ out.length = m.length
      ∧ (∀ b, b < dst ∨ dst + 2 * len ≤ b → out[b]? = m[b]?)
      ∧ (∀ j, len ≤ j → load16 le out (dst + 2 * j) = load16 le m (dst + 2 * j))
      ∧ (∀ j, src + 4 * j + 4 ≤ dst ∨ dst + 2 * len ≤ src + 4 * j →
          load32 le out (src + 4 * j) = load32 le m (src + 4 * j))
      ∧ (src + 4 * n ≤ dst ∨ dst + 2 * len ≤ src →
          ∀ j, j < n → load32 le out (src + 4 * j) = load32 le m (src + 4 * j)) := by
  obtain ⟨out, h1, h2, h3⟩ :=
    convertLoop_frame le src dst len len 0 m rfl (Nat.zero_le _) (by omega) (by omega)
  refine ⟨out, h1, h2, fun b hb => h3 b (by omega), fun j hj => ?_, fun j hj => ?_,
    fun hd j hj => ?_⟩
  · exact load16_congr le out m _ h2 (fun b hb1 hb2 => h3 b (by omega))
  · exact load32_congr le out m _ h2 (fun b hb1 hb2 => h3 b (by omega))
  · exact load32_congr le out m _ h2 (fun b hb1 hb2 => h3 b (by omega))

theorem C6_frame_witness :
    0 + 4 * 2 ≤ [0, 0, 0x80, 0x3F, 0, 0, 0, 0xC0, 7, 7, 7, 7].length
      ∧ 8 + 2 * 2 ≤ [0, 0, 0x80, 0x3F, 0, 0, 0, 0xC0, 7, 7, 7, 7].length
      ∧ 1 ≤ 2
      ∧ ∃ out, convertFloat32ToFloat16 true [0, 0, 0x80, 0x3F, 0, 0, 0, 0xC0, 7, 7, 7, 7] 0 8 1
            = some out
          ∧ out.length = [0, 0, 0x80, 0x3F, 0, 0, 0, 0xC0, 7, 7, 7, 7].length
          ∧ (∀ j, 1 ≤ j → load16 true out (8 + 2 * j)
              = load16 true [0, 0, 0x80, 0x3F, 0, 0, 0, 0xC0, 7, 7, 7, 7] (8 + 2 * j))
          ∧ (∀ j, j < 2 → load32 true out (0 + 4 * j)
              = load32 true [0, 0, 0x80, 0x3F, 0, 0, 0, 0xC0, 7, 7, 7, 7] (0 + 4 * j)) :=
  ⟨by decide, by decide, by decide,
    (C6_frame true [0, 0, 0x80, 0x3F, 0, 0, 0, 0xC0, 7, 7, 7, 7] 0 8 2 2 1
      (by decide) (by decide) (by decide) (by decide)).imp
      fun _ h => ⟨h.1, h.2.1, h.2.2.2.1, h.2.2.2.2.2 (by decide)⟩⟩

end Float16
